import Mathlib

/-!
Verification of the typm package manager core (src/typm/utils.py and
src/typm/cli.py) against its natural-language specification.

The Python source is shallowly embedded: pure string/path logic is translated
to executable Lean functions on `String` / `List Char` / `List String`;
filesystem and subprocess interaction is abstracted into explicit oracle
parameters (an `isDir` predicate, a file-content map, success flags for
external tools) and the commands are modelled as functions returning
`Except CmdError` values, with the single destination-writing collaborator
(`copy_files`) modelled as a producer of an explicit action trace.

Python-specific primitive behaviour (str.split, str.splitlines, str.lstrip,
re.match for the fixed patterns used by the source, fnmatch.fnmatch,
os.path relative paths on POSIX) is reproduced by the `py*` helpers below;
each notes the Python behaviour it mirrors.
-/

/-- Whitespace as used by Python's `str.split()` / `str.lstrip()` and the
regex class `\s` (restricted to the ASCII range, which is all the source's
inputs use). -/
def pyWs (c : Char) : Bool :=
  c == ' ' || c == '\t' || c == '\n' || c == '\r' || c == '\x0b' || c == '\x0c'

/-- Accumulator for `pySplitWs`: splits on runs of whitespace, discarding
empty tokens, exactly like Python `str.split()` with no argument.
`cur` holds the current token reversed. -/
def wsTokensAux (cur : List Char) : List Char → List (List Char)
  | [] => if cur.isEmpty then [] else [cur.reverse]
  | c :: cs =>
    if pyWs c then
      if cur.isEmpty then wsTokensAux [] cs else cur.reverse :: wsTokensAux [] cs
    else wsTokensAux (c :: cur) cs

/-- Python `s.split()` (no separator argument). -/
def pySplitWs (s : String) : List String :=
  (wsTokensAux [] s.data).map String.mk

/-- Python `s.split(sep)` for a one-character separator, on character lists:
keeps empty pieces, `[""]` for the empty string. -/
def splitChar (sep : Char) : List Char → List (List Char)
  | [] => [[]]
  | c :: cs =>
    let r := splitChar sep cs
    if c == sep then [] :: r
    else
      match r with
      | h :: t => (c :: h) :: t
      | [] => [[c]]

/-- Python `s.split(sep, 1)` padded to two pieces:
`(s.split(sep, 1) + [""])[:2]` — the part before the first separator and the
part after it (empty when the separator is absent). -/
def splitOnceChar (sep : Char) (s : String) : String × String :=
  match s.data.findIdx? (fun c => c == sep) with
  | none => (s, "")
  | some i => (String.mk (s.data.take i), String.mk (s.data.drop (i + 1)))

/-- Python `s.rstrip("/")` followed by `s.rstrip(os.sep)` with POSIX
`os.sep = "/"`: removes every trailing slash. -/
def rstripSlashes (s : String) : String :=
  String.mk ((s.data.reverse.dropWhile (fun c => c == '/')).reverse)

/-- Python `str.startswith` via character lists (used instead of the
byte-position based core `String.isPrefixOf`, which is opaque to kernel
reduction). -/
def strIsPrefix (p s : String) : Bool :=
  List.isPrefixOf p.data s.data

/-- Python `str.endswith`. -/
def strEndsWith (s suf : String) : Bool :=
  List.isPrefixOf suf.data.reverse s.data.reverse

/-- Python `s[n:]` by characters. -/
def strDrop (s : String) (n : Nat) : String :=
  String.mk (s.data.drop n)

/-- Python truthiness of a string: `not s` is true exactly for `""`. -/
def strIsEmpty (s : String) : Bool :=
  s.data.isEmpty

/-- Python `str.lower` (the source only lowercases ASCII hosts/aliases). -/
def strToLower (s : String) : String :=
  String.mk (s.data.map Char.toLower)

/-- The `/`-separated components of the string handed to `pathlib.Path`,
with empty and `"."` components dropped (pathlib collapses them).  Used to
model `Path.parts` for the relative paths this program builds. -/
def pathParts (s : String) : List (List Char) :=
  (splitChar '/' s.data).filter (fun seg => !(seg.isEmpty || seg == ['.']))

/-- `pathlib.Path(s).name`: the final path component (empty for paths with
no component, such as `""` or `"/"`). -/
def pathName (s : String) : String :=
  String.mk ((pathParts s).getLastD [])

/-- `pathlib.Path(name).suffix`: the part of the final component from its
last dot, empty when the dot is leading or trailing or absent.
`pathSuffixAux` returns the sub-list starting at the last `'.'`. -/
def pathSuffixAux : List Char → Option (List Char)
  | [] => none
  | c :: cs =>
    match pathSuffixAux cs with
    | some s => some s
    | none => if c == '.' then some (c :: cs) else none

def pathSuffix (nm : String) : String :=
  match pathSuffixAux nm.data with
  | some s => if s.length < nm.data.length ∧ 1 < s.length then String.mk s else ""
  | none => ""

/-- Does `pathlib.Path(p)` contain a `".."` component? -/
def pathHasDotDot (p : String) : Bool :=
  (pathParts p).contains ['.', '.']

/-- Python `s.removesuffix(suf)`. -/
def removeSuffix (s suf : String) : String :=
  if strIsEmpty suf then s
  else if strEndsWith s suf then String.mk (s.data.take (s.data.length - suf.data.length))
  else s

/-- Value of a run of decimal digits (as produced by the regex `\d+`;
Python's `int()` of the matched group). -/
def digitsVal (ds : List Char) : Nat :=
  ds.foldl (fun n c => n * 10 + (c.toNat - 48)) 0

/-- Parse a non-empty leading digit run: the regex fragment `(\d+)`. -/
def parseNatRun (l : List Char) : Option (Nat × List Char) :=
  let ds := l.takeWhile Char.isDigit
  if ds.isEmpty then none else some (digitsVal ds, l.dropWhile Char.isDigit)

/-- `parse_semver` (utils.py:40-44): `re.match(r"^\s*(\d+)\.(\d+)\.(\d+)", v)`,
trailing characters ignored; `none` models the raised `BadParameter`. -/
def parse_semver (v : String) : Option (Nat × Nat × Nat) :=
  let l0 := v.data.dropWhile pyWs
  match parseNatRun l0 with
  | none => none
  | some (a, l1) =>
    match l1 with
    | '.' :: l2 =>
      match parseNatRun l2 with
      | none => none
      | some (b, l3) =>
        match l3 with
        | '.' :: l4 =>
          match parseNatRun l4 with
          | none => none
          | some (c, _) => some (a, b, c)
        | _ => none
    | _ => none

/-- Lexicographic `<` on Python 3-tuples of ints. -/
def tripleLt (a b : Nat × Nat × Nat) : Bool :=
  a.1 < b.1 || (a.1 == b.1 && (a.2.1 < b.2.1 || (a.2.1 == b.2.1 && a.2.2 < b.2.2)))

/-- `cmp_semver` (utils.py:47-48): `(a > b) - (a < b)` on int triples. -/
def cmp_semver (a b : Nat × Nat × Nat) : Int :=
  (if tripleLt b a then 1 else 0) - (if tripleLt a b then 1 else 0)

/-- The operator table of `matches_version_req`, in the source's order
(longest prefixes first). -/
def opList : List String := [">=", "<=", "==", "!=", ">", "<", "="]

/-- The prefix-detection loop of `matches_version_req` (utils.py:60-63):
first operator in `opList` that is a prefix of the token, together with the
remainder of the token. -/
def findOpPrefixAux : List String → String → Option (String × String)
  | [], _ => none
  | p :: ps, t =>
    if strIsPrefix p t then some (p, strDrop t p.data.length) else findOpPrefixAux ps t

def findOpPrefix (t : String) : Option (String × String) :=
  findOpPrefixAux opList t

/-- `tokens[i] in (">=", "<=", "==", "!=", ">", "<", "=")`. -/
def isOpToken (t : String) : Bool := opList.contains t

/-- The dictionary lookup at utils.py:86-94 applied to `c = cmp_semver ver sv`. -/
def opHolds (op : String) (c : Int) : Bool :=
  if op == ">" then c > 0
  else if op == "<" then c < 0
  else if op == ">=" then c ≥ 0
  else if op == "<=" then c ≤ 0
  else if op == "==" then c == 0
  else if op == "=" then c == 0
  else !(c == 0)

/-- Evaluate one recognized `(operator, operand)` pair against `ver`:
parse the operand (failure makes the whole requirement non-matching,
utils.py:81-84) and test the comparison result. -/
def checkConstraint (ver : Nat × Nat × Nat) (p : String × String) : Bool :=
  match parse_semver p.2 with
  | none => false
  | some sv => opHolds p.1 (cmp_semver ver sv)

/-- The token loop of `matches_version_req` (utils.py:56-98), recursing on
the token list.  A token with an operator prefix contributes a constraint;
otherwise, a token that is exactly an operator followed by another token
consumes both (utils.py:64-76); any other token is skipped. -/
def matchesTokens (ver : Nat × Nat × Nat) : List String → Bool
  | [] => true
  | t :: rest =>
    match findOpPrefix t with
    | some (op, v) => checkConstraint ver (op, v) && matchesTokens ver rest
    | none =>
      if isOpToken t then
        match rest with
        | v :: rest2 => checkConstraint ver (t, v) && matchesTokens ver rest2
        | [] => true
      else matchesTokens ver rest

/-- `matches_version_req` (utils.py:51-98). -/
def matches_version_req (req : String) (ver : Nat × Nat × Nat) : Bool :=
  matchesTokens ver (pySplitWs req)

/-- The `(operator, operand)` pairs the token loop of `matches_version_req`
recognizes, in order — same traversal as `matchesTokens`, recording the pairs
instead of evaluating them. -/
def constraints_of : List String → List (String × String)
  | [] => []
  | t :: rest =>
    match findOpPrefix t with
    | some (op, v) => (op, v) :: constraints_of rest
    | none =>
      if isOpToken t then
        match rest with
        | v :: rest2 => (t, v) :: constraints_of rest2
        | [] => []
      else constraints_of rest

/-- Find the first occurrence of `sep`, returning the part before it and the
part after it. -/
def breakAtChar (sep : Char) : List Char → Option (List Char × List Char)
  | [] => none
  | c :: cs =>
    if c == sep then some ([], cs)
    else
      match breakAtChar sep cs with
      | some (a, b) => some (c :: a, b)
      | none => none

/-- Body of `parseClass` after the optional `!` has been consumed: a `]`
directly at the start is class content, the next `]` closes the class. -/
def parseClassBody (neg : Bool) : List Char → Option (Bool × List Char × List Char)
  | ']' :: t =>
    match breakAtChar ']' t with
    | some (a, b) => some (neg, ']' :: a, b)
    | none => none
  | l1 =>
    match breakAtChar ']' l1 with
    | some (a, b) => some (neg, a, b)
    | none => none

/-- Parse a `fnmatch` character class.  `l` is the pattern text after `[`.
Returns the negation flag, the class content, and the pattern after the
closing `]`; `none` when there is no closing bracket (then `[` is literal,
as in `fnmatch.translate`).  A `]` directly after `[` or `[!` is content. -/
def parseClass : List Char → Option (Bool × List Char × List Char)
  | '!' :: l1 => parseClassBody true l1
  | l => parseClassBody false l

theorem breakAtChar_rest_lt (sep : Char) :
    ∀ l a b, breakAtChar sep l = some (a, b) → b.length < l.length := by
  intro l
  induction l with
  | nil => intro a b h; simp [breakAtChar] at h
  | cons c cs ih =>
    intro a b h
    simp only [breakAtChar] at h
    split at h
    · cases h; simp
    · cases hb : breakAtChar sep cs with
      | none => rw [hb] at h; cases h
      | some ab =>
        rw [hb] at h
        cases h
        have := ih ab.1 ab.2 (by rw [hb])
        simp only [List.length_cons]
        omega

theorem parseClassBody_rest_le (neg : Bool) (l1 : List Char) (n : Bool)
    (items rest : List Char) (h : parseClassBody neg l1 = some (n, items, rest)) :
    rest.length ≤ l1.length := by
  unfold parseClassBody at h
  split at h
  · rename_i t
    cases hb : breakAtChar ']' t with
    | none => rw [hb] at h; cases h
    | some ab =>
      rw [hb] at h; cases h
      have := breakAtChar_rest_lt ']' t ab.1 ab.2 (by rw [hb])
      simp only [List.length_cons]
      omega
  · cases hb : breakAtChar ']' l1 with
    | none => rw [hb] at h; cases h
    | some ab =>
      rw [hb] at h; cases h
      have := breakAtChar_rest_lt ']' l1 ab.1 ab.2 (by rw [hb])
      omega

theorem parseClass_rest_le (l : List Char) (neg : Bool) (items rest : List Char)
    (h : parseClass l = some (neg, items, rest)) : rest.length ≤ l.length := by
  unfold parseClass at h
  split at h
  · rename_i l1
    have := parseClassBody_rest_le true l1 neg items rest h
    simp only [List.length_cons]
    omega
  · exact parseClassBody_rest_le false l neg items rest h

/-- One class item list matched against a character: `a-z` ranges and
literal characters, as produced by `fnmatch.translate`. -/
def matchClassItems : List Char → Char → Bool
  | [], _ => false
  | lo :: '-' :: hi :: rest, c => (lo ≤ c && c ≤ hi) || matchClassItems rest c
  | x :: rest, c => (x == c) || matchClassItems rest c

/-- Shell-glob matching of pattern `p` against string `s`, as performed by
`fnmatch.fnmatch` on POSIX (`os.path.normcase` is the identity there; the
whole string must match): `*` matches any sequence including `/`, `?` any
single character, `[...]`/`[!...]` a character class. -/
def globMatch (p s : List Char) : Bool :=
  match p, s with
  | [], s => s.isEmpty
  | pc :: ps, s =>
    if pc == '*' then
      match s with
      | [] => globMatch ps []
      | c :: s2 => globMatch ps (c :: s2) || globMatch (pc :: ps) s2
    else if pc == '?' then
      match s with
      | [] => false
      | _ :: s2 => globMatch ps s2
    else if pc == '[' then
      match hcl : parseClass ps with
      | some (neg, items, rest) =>
        match s with
        | [] => false
        | c :: s2 => (neg != matchClassItems items c) && globMatch rest s2
      | none =>
        match s with
        | [] => false
        | c :: s2 => (c == '[') && globMatch ps s2
    else
      match s with
      | [] => false
      | c :: s2 => (pc == c) && globMatch ps s2
termination_by p.length + s.length
decreasing_by
  all_goals simp only [List.length_cons]
  all_goals try omega
  all_goals have hrest := parseClass_rest_le ps _ _ _ hcl
  all_goals omega

/-- `fnmatch.fnmatch(nm, pat)`. -/
def fnmatch (nm pat : String) : Bool :=
  globMatch pat.data nm.data

/-- `any(c in pattern for c in "*?[]")` (utils.py:177). -/
def hasGlobChar (pattern : String) : Bool :=
  pattern.data.any (fun c => c == '*' || c == '?' || c == '[' || c == ']')

/-- `should_exclude` (utils.py:169-183).  `rel_path` is
`os.path.relpath(file_path, base_dir)` — the caller `copy_files` always
passes a file path under `base_dir`, for which this is the path with the
base prefix removed; `isDir pattern` models
`os.path.isdir(os.path.join(base_dir, pattern))`.  POSIX `os.sep = "/"`. -/
def should_exclude (rel_path : String) (exclude_patterns : List String)
    (isDir : String → Bool) : Bool :=
  exclude_patterns.any (fun pattern =>
    fnmatch rel_path pattern ||
    ((strEndsWith pattern ("/") || (!hasGlobChar pattern && isDir pattern)) &&
     (rel_path == rstripSlashes pattern ||
      strIsPrefix (rstripSlashes pattern ++ "/") rel_path)))

/-- The line-boundary characters of Python `str.splitlines()`. -/
def pyIsLineBreak (c : Char) : Bool :=
  c == '\n' || c == '\r' || c == '\x0b' || c == '\x0c' ||
  c == '\x1c' || c == '\x1d' || c == '\x1e' || c == '\x85' ||
  c == ' ' || c == ' '

/-- Accumulator for `pySplitlines`; `cur` is the current line reversed.
`\r\n` counts as a single boundary; a trailing boundary produces no final
empty line, exactly like Python `str.splitlines()`. -/
def pySplitlinesAux (cur : List Char) : List Char → List (List Char)
  | [] => if cur.isEmpty then [] else [cur.reverse]
  | '\r' :: '\n' :: cs => cur.reverse :: pySplitlinesAux [] cs
  | c :: cs =>
    if pyIsLineBreak c then cur.reverse :: pySplitlinesAux [] cs
    else pySplitlinesAux (c :: cur) cs

/-- Python `content.splitlines()`. -/
def pySplitlines (l : List Char) : List (List Char) :=
  pySplitlinesAux [] l

/-- `"\n".join(lines)` on character lists. -/
def joinLines : List (List Char) → List Char
  | [] => []
  | [l] => l
  | l :: ls => l ++ '\n' :: joinLines ls

/-- `line.lstrip().startswith("#:schema")` (utils.py:226). -/
def isSchemaLine (line : List Char) : Bool :=
  List.isPrefixOf ("#:schema".data) (line.dropWhile pyWs)

/-- The manifest-sanitization branch of `copy_files` (utils.py:221-228):
split the manifest into lines, drop every line whose stripped content starts
with `#:schema`, join the survivors with `"\n"`. -/
def sanitize_manifest (content : String) : String :=
  String.mk (joinLines ((pySplitlines content.data).filter (fun line => !isSchemaLine line)))

/-- The optional colon clause of the import regex,
`((?::\s*[^"]*)?)` followed by the closing `"` (utils.py:198-199): on
success returns the captured clause and the text after the closing quote.
The greedy alternative (a `:`-clause running to the next `"`) is tried
first, the empty alternative needs the `"` immediately. -/
def matchClause (l : List Char) : Option (List Char × List Char) :=
  match l with
  | ':' :: l1 =>
    let ws := l1.takeWhile pyWs
    let l2 := l1.dropWhile pyWs
    let body := l2.takeWhile (fun c => !(c == '"'))
    match l2.dropWhile (fun c => !(c == '"')) with
    | '"' :: rest => some (':' :: (ws ++ body), rest)
    | _ => none
  | '"' :: rest => some ([], rest)
  | _ => none

/-- Count the leading repetitions of `"../"`, the greedy maximum of the
regex fragment `((?:\.\./)+)`. -/
def countDotDotSlash : List Char → Nat
  | '.' :: '.' :: '/' :: rest => countDotDotSlash rest + 1
  | _ => 0

/-- Strip `pre` from the front of `l`, if present. -/
def stripPre (pre l : List Char) : Option (List Char) :=
  if List.isPrefixOf pre l then some (l.drop pre.length) else none

/-- Backtracking over the repetition count of `((?:\.\./)+)` as Python's
regex engine does: try the greedy count first, then fewer, at least one.
`l0` is the text after the opening quote; on success returns the captured
colon clause and the text after the match. -/
def tryFromReps (entry l0 : List Char) : Nat → Option (List Char × List Char)
  | 0 => none
  | k + 1 =>
    match stripPre entry (l0.drop (3 * (k + 1))) with
    | some l1 =>
      match matchClause l1 with
      | some r => some r
      | none => tryFromReps entry l0 k
    | none => tryFromReps entry l0 k

/-- Try to match the compiled import regex
`#import\s+"((?:\.\./)+)<entry>((?::\s*[^"]*)?)"` (utils.py:198-199) at the
start of `s`; on success returns the captured colon clause (group 2) and
the remainder of the text after the match. -/
def matchImportAt (entry s : List Char) : Option (List Char × List Char) :=
  match stripPre ("#import".data) s with
  | none => none
  | some s1 =>
    if (s1.takeWhile pyWs).isEmpty then none
    else
      match s1.dropWhile pyWs with
      | '"' :: s2 => tryFromReps entry s2 (countDotDotSlash s2)
      | _ => none

/-- The scan-and-replace loop of `re.sub` for the import regex: at each
position try the pattern; on a match emit
`#import "<full_package_import><clause>"` (utils.py:231-233) and continue
after the match, otherwise keep the character.  `fuel` (instantiated with
the text length, an upper bound on the number of steps) makes the
recursion structural. -/
def subImportsFuel (entry repl : List Char) : Nat → List Char → List Char
  | _, [] => []
  | 0, s => s
  | fuel + 1, c :: cs =>
    match matchImportAt entry (c :: cs) with
    | some (clause, rest) =>
      ("#import \"".data ++ repl ++ clause ++ ['"']) ++ subImportsFuel entry repl fuel rest
    | none => c :: subImportsFuel entry repl fuel cs

/-- The self-import rewrite applied to a `.typ` file's content
(utils.py:229-234): `import_re.sub(lambda m: f(...), content)`. -/
def rewrite_imports (entrypoint_name full_package_import content : String) : String :=
  String.mk (subImportsFuel entrypoint_name.data full_package_import.data
    content.data.length content.data)

/-- One `(root, files)` step of `os.walk(source_dir)`: the absolute
directory path (as normalized segments, no symlinks, so `Path.resolve` is
the identity) and the plain files it contains. -/
structure WalkEntry where
  root : List String
  files : List String
deriving Repr, DecidableEq

/-- Observable filesystem effects of `copy_files`, in program order:
`checked` — the path was matched against the exclusion rules;
`readFile` — the file's content was read;
`wrote` — a destination file was written with the given content;
`copied` — `shutil.copy2` copied the source file verbatim to the
destination. -/
inductive FsAction where
  | checked (src : List String)
  | readFile (src : List String)
  | wrote (dst : List String) (data : String)
  | copied (src dst : List String)
deriving Repr, DecidableEq

/-- The source paths a `copy_files` action consumes (reads or inspects). -/
def inputPathsOf : FsAction → List (List String)
  | .checked src => [src]
  | .readFile src => [src]
  | .wrote _ _ => []
  | .copied src _ => [src]

/-- `os.path.relpath(file_path, base_dir)` for a file path that extends
`source_dir` (the only way `copy_files` calls it). -/
def relPathOf (source_dir path : List String) : String :=
  String.intercalate ("/") (path.drop source_dir.length)

/-- The per-file body of `copy_files` (utils.py:212-236): exclusion check,
then manifest sanitization for `typst.toml`, self-import rewrite for
`.typ`, verbatim copy otherwise.  `readF` maps a path to that file's text
content. -/
def processFile (source_dir dest_dir : List String) (exclude_patterns : List String)
    (isDir : String → Bool) (readF : List String → String)
    (entrypoint_name full_package_import : String)
    (root : List String) (nm : String) : List FsAction :=
  let src := root ++ [nm]
  if should_exclude (relPathOf source_dir src) exclude_patterns isDir then
    [.checked src]
  else
    let dst := dest_dir ++ (src.drop source_dir.length)
    if nm == "typst.toml" then
      [.checked src, .readFile src, .wrote dst (sanitize_manifest (readF src))]
    else if pathSuffix nm == ".typ" then
      [.checked src, .readFile src,
       .wrote dst (rewrite_imports entrypoint_name full_package_import (readF src))]
    else
      [.checked src, .copied src dst]

/-- The `for name in files` loop of one walk step. -/
def walkFiles (source_dir dest_dir : List String) (exclude_patterns : List String)
    (isDir : String → Bool) (readF : List String → String)
    (entrypoint_name full_package_import : String) (root : List String) :
    List String → List FsAction
  | [] => []
  | nm :: ns =>
    processFile source_dir dest_dir exclude_patterns isDir readF
        entrypoint_name full_package_import root nm ++
    walkFiles source_dir dest_dir exclude_patterns isDir readF
        entrypoint_name full_package_import root ns

/-- The `for root, dirs, files in os.walk(...)` loop (utils.py:202-236):
a walk root that resolves to a path inside the destination directory is
skipped wholesale (`continue`, utils.py:204-210). -/
def walkLoop (source_dir dest_dir : List String) (exclude_patterns : List String)
    (isDir : String → Bool) (readF : List String → String)
    (entrypoint_name full_package_import : String) :
    List WalkEntry → List FsAction
  | [] => []
  | e :: es =>
    (if dest_dir.isPrefixOf e.root then []
     else walkFiles source_dir dest_dir exclude_patterns isDir readF
            entrypoint_name full_package_import e.root e.files) ++
    walkLoop source_dir dest_dir exclude_patterns isDir readF
        entrypoint_name full_package_import es

/-- `copy_files` (utils.py:186-236) as an action-trace producer over an
abstract walk of the source tree.  `entrypoint_name` and the full import
string are derived exactly as at utils.py:195-196. -/
def copy_files (source_dir dest_dir : List String) (exclude_patterns : List String)
    (isDir : String → Bool) (readF : List String → String)
    (package_import_base package_version package_entrypoint : String)
    (walk : List WalkEntry) : List FsAction :=
  walkLoop source_dir dest_dir exclude_patterns isDir readF
    (pathName package_entrypoint)
    ("@" ++ package_import_base ++ ":" ++ package_version) walk

/-- `GitSourceDescriptor` (models.py:5-11); `path_in_repo` keeps the string
handed to `pathlib.Path`. -/
structure GitSourceDescriptor where
  repo_url_for_clone : String
  git_ref : Option String
  path_in_repo : String
  provider_host : String
  user_or_org : String
deriving Repr, DecidableEq

/-- The f-string construction shared by every success branch of
`parse_git_source`:
`https://<host>/<user>/<repo>.git` plus the remaining fields. -/
def mkDescriptor (host user repo : String) (gref : Option String)
    (path_in_repo : String) : GitSourceDescriptor :=
  { repo_url_for_clone := "https://" ++ host ++ "/" ++ user ++ "/" ++ repo ++ ".git"
    git_ref := gref
    path_in_repo := path_in_repo
    provider_host := host
    user_or_org := user }

/-- The alias table at utils.py:246-253 (`dict.get(alias, "")`). -/
def aliasHost (a : String) : String :=
  if a == "gh" || a == "github" then "github.com"
  else if a == "gl" || a == "gitlab" then "gitlab.com"
  else if a == "bb" || a == "bitbucket" then "bitbucket.org"
  else ""

/-- The alias-form branch of `parse_git_source` (utils.py:240-263):
`<alias>/<user>/<repo>[/<path...>]`.  Returns `none` when the branch does
not produce a descriptor and control falls through to the URL form. -/
def parse_alias (git_source_url : String) : Option GitSourceDescriptor :=
  match (splitChar '/' git_source_url.data).map String.mk with
  | p0 :: p1 :: rest2 =>
    if rest2.isEmpty then none
    else
      let user := p1
      let repo_and_path := String.intercalate ("/") rest2
      let host := aliasHost (strToLower p0)
      if !strIsEmpty host && !strIsEmpty user && !strIsEmpty repo_and_path then
        let rp := splitOnceChar '/' repo_and_path
        if !strIsEmpty rp.1 then some (mkDescriptor host user rp.1 none rp.2)
        else none
      else none
  | _ => none

/-- `if host.startswith("www."): host = host[4:]` (utils.py:269-270). -/
def stripWww (host0 : String) : String :=
  if strIsPrefix ("www.") host0 then strDrop host0 4 else host0

/-- Characters allowed in a URL scheme after the leading letter
(`urllib.parse`). -/
def isSchemeChar (c : Char) : Bool :=
  c.isAlpha || c.isDigit || c == '+' || c == '-' || c == '.'

/-- `urllib.parse.urlparse` restricted to the fields the source reads:
`(scheme, netloc, path)`.  A scheme is a leading letter followed by
scheme characters and a `:`; a netloc follows `//` and runs to the next
`/`, `?` or `#`; the path runs to the next `?` or `#`. -/
def urlparse (url : String) : String × String × String :=
  let cs := url.data
  let sp :=
    match cs with
    | c :: _ =>
      if c.isAlpha then
        match cs.dropWhile isSchemeChar with
        | ':' :: r => (String.mk ((cs.takeWhile isSchemeChar).map Char.toLower), r)
        | _ => ("", cs)
      else ("", cs)
    | [] => ("", cs)
  let np :=
    match sp.2 with
    | '/' :: '/' :: r =>
      (String.mk (r.takeWhile (fun c => !(c == '/' || c == '?' || c == '#'))),
       r.dropWhile (fun c => !(c == '/' || c == '?' || c == '#')))
    | r => ("", r)
  (sp.1, np.1, String.mk (np.2.takeWhile (fun c => !(c == '?' || c == '#'))))

/-- `[s for s in u.path.split("/") if s]` (utils.py:271). -/
def urlPathSegs (path : String) : List String :=
  ((splitChar '/' path.data).map String.mk).filter (fun s => !strIsEmpty s)

/-- The github branch's ref/path split (utils.py:275-281): `rest` is
`segs[2:]`; `tree`/`blob` marks a ref. -/
def githubRefPath (rest : List String) : Option String × List String :=
  match rest with
  | m :: r :: more =>
    if m == "tree" || m == "blob" then (some r, more) else (none, rest)
  | _ => (none, rest)

/-- The gitlab branch's ref/path split (utils.py:292-297): needs
`segs[2] == "-"` and `segs[3]` in `tree`/`blob`. -/
def gitlabRefPath (rest : List String) : Option String × List String :=
  match rest with
  | d :: m :: r :: more =>
    if d == "-" && (m == "tree" || m == "blob") then (some r, more) else (none, rest)
  | _ => (none, rest)

/-- `parse_git_source` (utils.py:239-320).  The host comparisons and the
two-segment minimum mirror utils.py:272, 289, 306; a recognized host with
fewer than two path segments falls through to the final error exactly as
the chained `if`s do.  `.error` models the raised `BadParameter`. -/
def parse_git_source (git_source_url : String) : Except String GitSourceDescriptor :=
  match parse_alias git_source_url with
  | some d => .ok d
  | none =>
    let u := urlparse git_source_url
    if strIsEmpty u.1 || strIsEmpty u.2.1 then
      .error ("Invalid Git source URL or alias: " ++ git_source_url)
    else
      let host := stripWww (strToLower u.2.1)
      match urlPathSegs u.2.2 with
      | user :: seg1 :: rest =>
        let repo := removeSuffix seg1 (".git")
        if host == "github.com" then
          let rp := githubRefPath rest
          .ok (mkDescriptor host user repo rp.1 (String.intercalate ("/") rp.2))
        else if host == "gitlab.com" then
          let rp := gitlabRefPath rest
          .ok (mkDescriptor host user repo rp.1 (String.intercalate ("/") rp.2))
        else if host == "bitbucket.org" then
          .ok (mkDescriptor host user repo none (String.intercalate ("/") rest))
        else
          .error ("Unsupported Git URL format or provider (or invalid alias): " ++
            git_source_url)
      | _ =>
        .error ("Unsupported Git URL format or provider (or invalid alias): " ++
          git_source_url)

/-- The host component embedded in a clone URL of the shape
`https://<host>/...`: the text between the `https://` prefix and the next
slash. -/
def hostOfUrl (u : String) : String :=
  String.mk ((u.data.drop 8).takeWhile (fun c => !(c == '/')))

/-- The fields the commands read from a loaded `typst.toml`
(`cfg.get("package", {})` / `cfg.get("template", {})`, cli.py:60-67 and
179-183).  `none` models an absent key. -/
structure PackageToml where
  package_name : Option String
  package_version : Option String
  package_exclude : List String
  package_entrypoint : Option String
  package_compiler : Option String
  template_path : Option String
  template_entrypoint : Option String
  template_thumbnail : Option String
deriving Repr, DecidableEq

/-- The error taxonomy of the commands (each is a raised
`typer.Exit(1)` / `typer.BadParameter` in the source). -/
inductive CmdError where
  | requiredFields
  | toolFailure
  | constraintUnsat
  | invalidManifest
  | templateFailed
  | thumbnailFailed
  | invalidSource
  | cloneFailed
deriving Repr, DecidableEq

/-- The arguments a command passes to `copy_files` (plus the destination
directory it prepares), recorded instead of performing the copy. -/
structure CopyCall where
  dest_dir : String
  exclude_patterns : List String
  package_import_base : String
  package_version : String
  package_entrypoint : String
deriving Repr, DecidableEq

/-- `validate_package_name` (utils.py:18-23): the raised `BadParameter` is
the spec's InvalidManifest. -/
def validate_package_name (package_name parent_dir_name : String) : Except CmdError Unit :=
  if !(package_name == parent_dir_name) then .error .invalidManifest else .ok ()

/-- The compiler-requirement check shared by build and install
(cli.py:74-83 and 191-200).  `typst_version` is the external
`get_typst_version` oracle (`none`: the tool failed).  An empty
requirement string is falsy in Python, so no check runs. -/
def checkCompiler (compiler_req : Option String)
    (typst_version : Option (Nat × Nat × Nat)) : Except CmdError Unit :=
  match compiler_req with
  | none => .ok ()
  | some req =>
    if strIsEmpty req then .ok ()
    else
      match typst_version with
      | none => .error .toolFailure
      | some current =>
        if matches_version_req req current then .ok () else .error .constraintUnsat

/-- The template-compilation steps of build (cli.py:87-102), with the two
external `typst compile` invocations as success oracles. -/
def runTemplates (cfg : PackageToml) (template_ok thumbnail_ok : Bool) :
    Except CmdError Unit :=
  let template_path := strIsEmpty (cfg.template_path.getD (""))
  let template_entry := strIsEmpty (cfg.template_entrypoint.getD (""))
  if !template_path && !template_entry then
    if !template_ok then .error .templateFailed
    else if !strIsEmpty (cfg.template_thumbnail.getD ("")) && !thumbnail_ok then
      .error .thumbnailFailed
    else .ok ()
  else .ok ()

/-- The final stretch of build (cli.py:104-120): compose the output
directory, append the output directory's base name to the exclude list if
absent, and call `copy_files`. -/
def build_finish (package_name package_version package_entrypoint : String)
    (package_exclude : List String) (output_dir ns : String) : CopyCall :=
  let out_name := pathName output_dir
  let exclude2 :=
    if package_exclude.contains out_name then package_exclude
    else package_exclude ++ [out_name]
  { dest_dir := output_dir ++ "/" ++ package_name ++ "/" ++ package_version
    exclude_patterns := exclude2
    package_import_base := ns ++ "/" ++ package_name
    package_version := package_version
    package_entrypoint := package_entrypoint }

/-- The `build` command (cli.py:24-123) after the manifest at
`toml_dir_name`'s `typst.toml` has been loaded into `cfg`: required-field
check, compiler check, name/directory validation, template compilation,
then the `copy_files` call (returned as a `CopyCall`; an error means the
command aborts before it).  Missing and empty strings coincide because the
source tests Python truthiness. -/
def build_cmd (toml_dir_name : String) (cfg : PackageToml)
    (typst_version : Option (Nat × Nat × Nat)) (template_ok thumbnail_ok : Bool)
    (output_dir ns : String) : Except CmdError CopyCall :=
  let package_name := cfg.package_name.getD ("")
  let package_version := cfg.package_version.getD ("")
  if strIsEmpty package_name || strIsEmpty package_version then .error .requiredFields
  else
    match checkCompiler cfg.package_compiler typst_version with
    | .error e => .error e
    | .ok _ =>
      match validate_package_name package_name toml_dir_name with
      | .error e => .error e
      | .ok _ =>
        match runTemplates cfg template_ok thumbnail_ok with
        | .error e => .error e
        | .ok _ =>
          .ok (build_finish package_name package_version
            (cfg.package_entrypoint.getD ("main.typ")) cfg.package_exclude
            output_dir ns)

/-- The provider-abbreviation table of install (cli.py:203-207):
`dict.get(host, host.split(".")[0])`. -/
def providerAbbr (host : String) : String :=
  if host == "github.com" then "gh"
  else if host == "gitlab.com" then "gl"
  else if host == "bitbucket.org" then "bb"
  else String.mk ((splitChar '.' host.data).headD [])

/-- The `install` command (cli.py:126-226) with its external interactions
as oracles: `clone_ok` is the `git clone` exit status; `cfg` is the
manifest found at the resolved (or searched) location, whose containing
directory is named `toml_dir_name`; `data_dir` is `linux_data_dir()`.
Returns the `copy_files` call it would make.  Note: install loads the
manifest and checks required fields and the compiler requirement, but
never calls `validate_package_name`. -/
def install_cmd (git_source : String) (clone_ok : Bool) (toml_dir_name : String)
    (cfg : PackageToml) (typst_version : Option (Nat × Nat × Nat))
    (data_dir : String) : Except CmdError CopyCall :=
  match parse_git_source git_source with
  | .error _ => .error .invalidSource
  | .ok desc =>
    if !clone_ok then .error .cloneFailed
    else
      let nm := cfg.package_name.getD ("")
      let version := cfg.package_version.getD ("")
      if strIsEmpty nm || strIsEmpty version then .error .requiredFields
      else
        match checkCompiler cfg.package_compiler typst_version with
        | .error e => .error e
        | .ok _ =>
          let ns := providerAbbr desc.provider_host ++ "-" ++ desc.user_or_org
          .ok { dest_dir :=
                  data_dir ++ "/packages/" ++ ns ++ "/" ++ nm ++ "/" ++ version
                exclude_patterns := cfg.package_exclude
                package_import_base := ns ++ "/" ++ nm
                package_version := version
                package_entrypoint := cfg.package_entrypoint.getD ("main.typ") }

theorem matchesTokens_eq_all (ver : Nat × Nat × Nat) (ts : List String) :
    matchesTokens ver ts = (constraints_of ts).all (checkConstraint ver) := by
  induction ts using constraints_of.induct with
  | case1 => rfl
  | case2 t rest op v hfind ih =>
    cases rest with
    | nil =>
      rw [matchesTokens.eq_3, constraints_of.eq_3, hfind]
      simp [ih]
    | cons v2 rest2 =>
      rw [matchesTokens.eq_2, constraints_of.eq_2, hfind]
      simp [ih]
  | case3 t hfind hop v rest2 ih =>
    rw [matchesTokens.eq_2, constraints_of.eq_2, hfind]
    simp [hop, ih]
  | case4 t hfind hop =>
    rw [matchesTokens.eq_3, constraints_of.eq_3, hfind]
    simp [hop]
  | case5 t rest hfind hop ih =>
    cases rest with
    | nil =>
      rw [matchesTokens.eq_3, constraints_of.eq_3, hfind]
      simp [hop, ih]
    | cons v2 rest2 =>
      rw [matchesTokens.eq_2, constraints_of.eq_2, hfind]
      simp [hop, ih]

/-- C7: constraint evaluation is the logical AND of all recognized
(operator, operand) pairs — `constraints_of` extracts exactly the pairs the
token loop recognizes — an empty requirement matches every version, and the
spec's two concrete examples evaluate as stated. -/
theorem claim_C7 :
    (∀ req ver, matches_version_req req ver
        = (constraints_of (pySplitWs req)).all (checkConstraint ver)) ∧
    matches_version_req (">=0.12.0 <0.13.0") (0, 12, 5) = true ∧
    matches_version_req (">=0.12.0 <0.13.0") (0, 13, 0) = false ∧
    (∀ ver, matches_version_req ("") ver = true) := by
  refine ⟨fun req ver => matchesTokens_eq_all ver (pySplitWs req), by decide, by decide, fun ver => rfl⟩

/-- C1 (code bug): a requirement whose operator stands as its own token is
never evaluated like the fused form.  The prefix loop at utils.py:60-63
catches the bare operator with an empty operand, `parse_semver ""` fails,
and the whole evaluation returns `False` for every version — the two-token
branch at utils.py:64-76 (whose own comment documents the intended
`["<", "1.2.3"]` handling) is unreachable.  The fused form `">1.2.3"`
matches `(2,0,0)`; the spaced form does not. -/
theorem claim_C1 :
    matches_version_req ("> 1.2.3") (2, 0, 0) = false ∧
    matches_version_req (">1.2.3") (2, 0, 0) = true ∧
    (∀ ver, matches_version_req ("> 1.2.3") ver = false) := by
  exact ⟨by decide, by decide, fun ver => rfl⟩

theorem takeWhileNeq (p : Char → Bool) (l1 l2 : List Char) (c : Char)
    (h1 : ∀ x ∈ l1, p x = true) (hc : p c = false) :
    (l1 ++ c :: l2).takeWhile p = l1 := by
  induction l1 with
  | nil => simp [List.takeWhile_cons, hc]
  | cons a t ih =>
    have ha : p a = true := h1 a (by simp)
    simp only [List.cons_append, List.takeWhile_cons, ha]
    simp only [if_true]
    rw [ih (fun x hx => h1 x (by simp [hx]))]

theorem mkDescriptor_host (host user repo : String) (g : Option String) (pir : String)
    (hh : ∀ c ∈ host.data, c ≠ '/') :
    hostOfUrl (mkDescriptor host user repo g pir).repo_url_for_clone
      = (mkDescriptor host user repo g pir).provider_host := by
  show hostOfUrl ("https://" ++ host ++ "/" ++ user ++ "/" ++ repo ++ ".git") = host
  unfold hostOfUrl
  have hdata : ("https://" ++ host ++ "/" ++ user ++ "/" ++ repo ++ ".git").data
      = "https://".data ++ (host.data ++ '/' :: (user.data ++ '/' :: (repo.data ++ ".git".data))) := by
    show ("https://".data ++ host.data ++ "/".data ++ user.data ++ "/".data ++ repo.data ++ ".git".data : List Char) = _
    simp [List.append_assoc]
  rw [hdata]
  rw [show (8 : Nat) = "https://".data.length from rfl, List.drop_left]
  rw [takeWhileNeq _ host.data _ '/' (fun x hx => by simp [hh x hx]) (by simp)]

theorem aliasHost_no_slash (a : String) : ∀ c ∈ (aliasHost a).data, c ≠ '/' := by
  unfold aliasHost
  split
  · decide
  · split
    · decide
    · split
      · decide
      · decide

theorem parse_alias_inv (s : String) (d : GitSourceDescriptor)
    (h : parse_alias s = some d) :
    d.git_ref = none ∧ hostOfUrl d.repo_url_for_clone = d.provider_host := by
  unfold parse_alias at h
  split at h
  · rename_i p0 p1 rest2
    split at h
    · cases h
    · simp only at h
      split at h
      · split at h
        · rename_i hne
          cases h
          exact ⟨rfl, mkDescriptor_host _ _ _ _ _ (aliasHost_no_slash _)⟩
        · cases h
      · cases h
  · cases h

theorem parse_git_source_host (s : String) (d : GitSourceDescriptor)
    (h : parse_git_source s = .ok d) :
    hostOfUrl d.repo_url_for_clone = d.provider_host := by
  unfold parse_git_source at h
  split at h
  · rename_i hal
    cases h
    exact (parse_alias_inv s _ hal).2
  · simp only at h
    split at h
    · cases h
    · split at h
      · rename_i user seg1 rest
        split at h
        · rename_i hgh
          cases h
          apply mkDescriptor_host
          rw [eq_of_beq hgh]
          decide
        · split at h
          · rename_i hgl
            cases h
            apply mkDescriptor_host
            rw [eq_of_beq hgl]
            decide
          · split at h
            · rename_i hbb
              cases h
              apply mkDescriptor_host
              rw [eq_of_beq hbb]
              decide
            · cases h
      · cases h

/-- C2 (amended): for every input on which git-source resolution succeeds,
the host embedded in the clone URL equals the provider host field — in both
the alias form and the URL form.  (The original claim's second half, that
the path-in-repo never contains a `..` component, fails: see the
counterexample.) -/
theorem claim_C2_amended (s : String) (d : GitSourceDescriptor)
    (h : parse_git_source s = .ok d) :
    hostOfUrl d.repo_url_for_clone = d.provider_host :=
  parse_git_source_host s d h

theorem claim_C2_witness :
    hostOfUrl (mkDescriptor ("github.com") ("acme") ("widgets") none
        ("sub/dir")).repo_url_for_clone
      = (mkDescriptor ("github.com") ("acme") ("widgets") none
        ("sub/dir")).provider_host :=
  claim_C2_amended ("gh/acme/widgets/sub/dir") _ (by rfl)

/-- C2 counterexample: the alias-form input `gh/acme/widgets/../secret`
resolves successfully, and its path-in-repo contains a `..` component. -/
theorem claim_C2_counterexample :
    parse_git_source ("gh/acme/widgets/../secret")
      = .ok (mkDescriptor ("github.com") ("acme") ("widgets") none ("../secret")) ∧
    pathHasDotDot ("../secret") = true :=
  ⟨rfl, by decide⟩

/-- C8: resolving the alias-form source `gh/acme/widgets/sub/dir` yields
clone URL `https://github.com/acme/widgets.git`, no git ref and in-repo
path `sub/dir`; and every alias-form resolution (a success of the alias
branch, utils.py:241-263) leaves the ref unset. -/
theorem claim_C8 :
    parse_git_source ("gh/acme/widgets/sub/dir")
      = .ok { repo_url_for_clone := ("https://github.com/acme/widgets.git")
              git_ref := none
              path_in_repo := ("sub/dir")
              provider_host := ("github.com")
              user_or_org := ("acme") } ∧
    (∀ s d, parse_alias s = some d → d.git_ref = none) := by
  constructor
  · rfl
  · intro s d h
    exact (parse_alias_inv s d h).1

theorem claim_C8_witness :
    (mkDescriptor ("github.com") ("acme") ("widgets") none ("sub/dir")).git_ref
      = none :=
  claim_C8.2 ("gh/acme/widgets/sub/dir") _ (by rfl)

theorem globMatch_lit (p : List Char)
    (hp : ∀ c ∈ p, c ≠ '*' ∧ c ≠ '?' ∧ c ≠ '[') :
    ∀ s, globMatch p s = true ↔ p = s := by
  induction p with
  | nil =>
    intro s
    cases s <;> simp [globMatch]
  | cons pc ps ih =>
    intro s
    obtain ⟨h1, h2, h3⟩ := hp pc (by simp)
    have ihs := ih (fun c hc => hp c (by simp [hc]))
    cases s with
    | nil =>
      rw [globMatch.eq_2]
      rw [if_neg (by simp [h1]), if_neg (by simp [h2]), if_neg (by simp [h3])]
      simp
    | cons c s2 =>
      rw [globMatch.eq_3]
      rw [if_neg (by simp [h1]), if_neg (by simp [h2]), if_neg (by simp [h3])]
      simp only [Bool.and_eq_true, beq_iff_eq, ihs s2, List.cons.injEq]

/-- A pattern with no glob metacharacter matches only itself. -/
theorem fnmatch_lit (r pat : String) (h : hasGlobChar pat = false) :
    fnmatch r pat = true ↔ r = pat := by
  unfold fnmatch
  unfold hasGlobChar at h
  have hp : ∀ c ∈ pat.data, c ≠ '*' ∧ c ≠ '?' ∧ c ≠ '[' := by
    intro c hc
    have h2 := List.any_eq_false.mp h c hc
    simp at h2
    exact ⟨h2.1.1.1, h2.1.1.2, h2.1.2⟩
  rw [globMatch_lit pat.data hp r.data]
  constructor
  · intro he
    exact (String.ext he).symm
  · intro he
    rw [he]

/-- C3 (amended): for a pattern with no glob metacharacters, exclusion of a
relative path holds exactly when the path equals the pattern (the only way
the glob branch can match a literal pattern), or the prefix branch applies —
which requires the pattern to end in a separator OR to name an existing
directory under the source root — and the path equals the stripped pattern
or lies beneath it.  (The original claim required an existing directory in
all prefix cases; the trailing-separator alternative refutes that, see the
counterexample.) -/
theorem claim_C3_amended (pattern rel : String) (isDir : String → Bool)
    (h : hasGlobChar pattern = false) :
    should_exclude rel [pattern] isDir = true ↔
      (rel = pattern ∨
       ((strEndsWith pattern ("/") = true ∨ isDir pattern = true) ∧
        (rel = rstripSlashes pattern ∨
         strIsPrefix (rstripSlashes pattern ++ "/") rel = true))) := by
  unfold should_exclude
  simp only [List.any_cons, List.any_nil, Bool.or_false, h, Bool.not_false,
    Bool.true_and, Bool.or_eq_true, Bool.and_eq_true, beq_iff_eq]
  rw [fnmatch_lit rel pattern h]

theorem claim_C3_witness :
    should_exclude ("build/sub/f.txt") [("build")] (fun p => p == ("build")) = true := by
  rw [claim_C3_amended ("build") ("build/sub/f.txt") (fun p => p == ("build")) (by decide)]
  right
  constructor
  · right
    decide
  · right
    decide

/-- C3 counterexample: the glob-free pattern `build/` does not name an
existing directory (the directory oracle is constantly false — e.g. `build`
is a regular file), yet it excludes the relative path `build` through the
literal prefix branch, not through glob matching. -/
theorem claim_C3_counterexample :
    should_exclude ("build") [("build/")] (fun _ => false) = true ∧
    fnmatch ("build") ("build/") = false := by
  constructor
  · unfold should_exclude
    simp only [List.any_cons, List.any_nil, Bool.or_false]
    rw [Bool.or_eq_true]
    right
    decide
  · have hl := fnmatch_lit ("build") ("build/") (by decide)
    cases hf : fnmatch ("build") ("build/")
    · rfl
    · exact absurd (hl.mp hf) (by decide)

/-- C4 counterexample: the install command succeeds — returning the
`copy_files` call it performs — on a manifest whose package name `foo`
differs from the name `not-foo` of the directory containing it; no
InvalidManifest failure occurs.  (Only the build command validates the
name against the directory.) -/
theorem claim_C4_counterexample :
    install_cmd ("gh/acme/widgets") true ("not-foo")
        ⟨some ("foo"), some ("1.0.0"), [], none, none, none, none, none⟩ none ("/data")
      = .ok { dest_dir := ("/data/packages/gh-acme/foo/1.0.0")
              exclude_patterns := []
              package_import_base := ("gh-acme/foo")
              package_version := ("1.0.0")
              package_entrypoint := ("main.typ") } ∧
    ("foo" : String) ≠ ("not-foo") :=
  ⟨rfl, by decide⟩

/-- C4 (amended): the build command — but not install — enforces the
name/directory check: when `package.name` differs from the containing
directory name, build never reaches its `copy_files` call, and when the
required-field check passes and no compiler requirement is present the
failure is exactly InvalidManifest. -/
theorem claim_C4_amended (toml_dir_name : String) (cfg : PackageToml)
    (typst_version : Option (Nat × Nat × Nat)) (template_ok thumbnail_ok : Bool)
    (output_dir ns : String)
    (hmismatch : cfg.package_name.getD ("") ≠ toml_dir_name) :
    (∀ c, build_cmd toml_dir_name cfg typst_version template_ok thumbnail_ok
        output_dir ns ≠ .ok c) ∧
    (cfg.package_name.getD ("") ≠ "" → cfg.package_version.getD ("") ≠ "" →
      cfg.package_compiler = none →
      build_cmd toml_dir_name cfg typst_version template_ok thumbnail_ok output_dir ns
        = .error .invalidManifest) := by
  have hval : validate_package_name (cfg.package_name.getD ("")) toml_dir_name
      = .error .invalidManifest := by
    unfold validate_package_name
    rw [if_pos (by simp [hmismatch])]
  constructor
  · intro c hc
    unfold build_cmd at hc
    dsimp only at hc
    rw [hval] at hc
    split at hc
    · cases hc
    · split at hc
      · cases hc
      · cases hc
  · intro h1 h2 h3
    have e1 : strIsEmpty (cfg.package_name.getD ("")) = false := by
      unfold strIsEmpty
      cases hs : (cfg.package_name.getD ("")).data with
      | nil => exact absurd (String.ext hs) h1
      | cons c cs => rfl
    have e2 : strIsEmpty (cfg.package_version.getD ("")) = false := by
      unfold strIsEmpty
      cases hs : (cfg.package_version.getD ("")).data with
      | nil => exact absurd (String.ext hs) h2
      | cons c cs => rfl
    unfold build_cmd
    dsimp only
    rw [if_neg (by simp [e1, e2]), h3, hval]
    rfl

theorem claim_C4_witness :
    build_cmd ("widgets-dir")
        ⟨some ("foo"), some ("1.0.0"), [], none, none, none, none, none⟩
        none true true ("out") ("preview") = .error .invalidManifest :=
  (claim_C4_amended ("widgets-dir")
      ⟨some ("foo"), some ("1.0.0"), [], none, none, none, none, none⟩
      none true true ("out") ("preview") (by decide)).2 (by decide) (by decide) rfl

/-- C5: materializing a `.typ` file named `main.typ` of package `foo`
version `1.0.0` under namespace `preview` (import base `preview/foo`,
cli.py:117) rewrites every occurrence of the self-import
`#import "../../main.typ": *` (any repetition of `../`) to
`#import "@preview/foo:1.0.0": *`, leaving all other text byte-identical —
shown on a file with two occurrences and surrounding text. -/
theorem claim_C5 :
    copy_files [("pkg")] [("build")] [] (fun _ => false)
      (fun p =>
        if p == [("pkg"), ("main.typ")] then
          ("// header\n#import \"../../main.typ\": *\nbody text\n#import \"../main.typ\": *\n// tail")
        else (""))
      ("preview/foo") ("1.0.0") ("main.typ")
      [⟨[("pkg")], [("main.typ")]⟩]
    = [.checked [("pkg"), ("main.typ")],
       .readFile [("pkg"), ("main.typ")],
       .wrote [("build"), ("main.typ")]
         ("// header\n#import \"@preview/foo:1.0.0\": *\nbody text\n#import \"@preview/foo:1.0.0\": *\n// tail")] := by
  rfl

theorem processFile_inputs (sd dd ex2 : List String)
    (isDir : String → Bool) (readF : List String → String) (en fp : String)
    (root : List String) (nm : String) (a : FsAction)
    (ha : a ∈ processFile sd dd ex2 isDir readF en fp root nm)
    (p : List String) (hp : p ∈ inputPathsOf a) : p = root ++ [nm] := by
  unfold processFile at ha
  dsimp only at ha
  by_cases h1 : should_exclude (relPathOf sd (root ++ [nm])) ex2 isDir = true
  · rw [if_pos h1] at ha
    simp at ha
    subst ha
    simpa [inputPathsOf] using hp
  · rw [if_neg h1] at ha
    by_cases h2 : (nm == ("typst.toml")) = true
    · rw [if_pos h2] at ha
      simp at ha
      rcases ha with h | h | h <;> subst h <;> simpa [inputPathsOf] using hp
    · rw [if_neg h2] at ha
      by_cases h3 : (pathSuffix nm == (".typ")) = true
      · rw [if_pos h3] at ha
        simp at ha
        rcases ha with h | h | h <;> subst h <;> simpa [inputPathsOf] using hp
      · rw [if_neg h3] at ha
        simp at ha
        rcases ha with h | h <;> subst h <;> simpa [inputPathsOf] using hp

theorem walkFiles_mem (sd dd ex2 : List String) (isDir : String → Bool)
    (readF : List String → String) (en fp : String) (root : List String)
    (files : List String) (a : FsAction)
    (ha : a ∈ walkFiles sd dd ex2 isDir readF en fp root files) :
    ∃ nm ∈ files, a ∈ processFile sd dd ex2 isDir readF en fp root nm := by
  induction files with
  | nil => simp [walkFiles] at ha
  | cons n ns ih =>
    rw [walkFiles] at ha
    rcases List.mem_append.mp ha with h | h
    · exact ⟨n, by simp, h⟩
    · obtain ⟨nm, hnm, hpf⟩ := ih h
      exact ⟨nm, by simp [hnm], hpf⟩

theorem walkLoop_mem (sd dd ex2 : List String) (isDir : String → Bool)
    (readF : List String → String) (en fp : String) (walk : List WalkEntry)
    (a : FsAction) (ha : a ∈ walkLoop sd dd ex2 isDir readF en fp walk) :
    ∃ e ∈ walk, dd.isPrefixOf e.root = false ∧
      a ∈ walkFiles sd dd ex2 isDir readF en fp e.root e.files := by
  induction walk with
  | nil => simp [walkLoop] at ha
  | cons e es ih =>
    rw [walkLoop] at ha
    rcases List.mem_append.mp ha with h | h
    · split at h
      · simp at h
      · rename_i hskip
        refine ⟨e, by simp, ?_, h⟩
        cases hbe : dd.isPrefixOf e.root
        · rfl
        · exact absurd (List.isPrefixOf_iff_prefix.mp hbe) (by simpa using hskip)
    · obtain ⟨e2, he2, hs, hw⟩ := ih h
      exact ⟨e2, by simp [he2], hs, hw⟩

/-- C6: during materialization, whenever the destination root lies inside
the source root, no path strictly under the destination root is ever
consumed — matched against the exclusion rules, read, or copied (its only
possible occurrence as an action input collapses to the destination root
itself, which `mkdir` created as a directory, not a file).  The walk skips
every root inside the destination (utils.py:204-210), so re-running
materialization with a nested destination does not recurse into or
duplicate previously copied output. -/
theorem claim_C6 (source_dir dest_dir ex2 : List String) (isDir : String → Bool)
    (readF : List String → String)
    (package_import_base package_version package_entrypoint : String)
    (walk : List WalkEntry)
    (hnest : source_dir.isPrefixOf dest_dir = true)
    (a : FsAction)
    (ha : a ∈ copy_files source_dir dest_dir ex2 isDir readF
            package_import_base package_version package_entrypoint walk)
    (p : List String) (hp : p ∈ inputPathsOf a)
    (hunder : dest_dir.isPrefixOf p = true) : p = dest_dir := by
  obtain ⟨e, he, hskip, hw⟩ := walkLoop_mem _ _ _ _ _ _ _ _ _ ha
  obtain ⟨nm, hnm, hpf⟩ := walkFiles_mem _ _ _ _ _ _ _ _ _ _ hw
  have hpe := processFile_inputs _ _ _ _ _ _ _ _ _ _ hpf p hp
  subst hpe
  by_contra hne
  have h1 : dest_dir <+: (e.root ++ [nm]) := List.isPrefixOf_iff_prefix.mp hunder
  have hlen : dest_dir.length ≤ e.root.length := by
    have h2 := h1.length_le
    simp only [List.length_append, List.length_cons, List.length_nil] at h2
    rcases Nat.lt_or_ge dest_dir.length (e.root.length + 1) with h | h
    · omega
    · exfalso
      have hll : dest_dir.length = (e.root ++ [nm]).length := by
        simp only [List.length_append, List.length_cons, List.length_nil]
        omega
      exact hne (List.IsPrefix.eq_of_length h1 hll).symm
  have h3 : dest_dir <+: e.root :=
    List.prefix_of_prefix_length_le h1 (List.prefix_append e.root [nm]) hlen
  exact absurd (List.isPrefixOf_iff_prefix.mpr h3) (by simp [hskip])

theorem claim_C6_witness : ([("s"), ("out")] : List String) = [("s"), ("out")] :=
  claim_C6 [("s")] [("s"), ("out")] [] (fun _ => false) (fun _ => (""))
    ("preview/x") ("1.0.0") ("main.typ")
    [⟨[("s")], [("out")]⟩] (by decide)
    (FsAction.checked [("s"), ("out")]) (by decide)
    [("s"), ("out")] (by decide) (by decide)

theorem splitChar_no_sep (sep : Char) :
    ∀ l piece, piece ∈ splitChar sep l → sep ∉ piece := by
  intro l
  induction l with
  | nil =>
    intro piece h
    simp [splitChar] at h
    subst h
    simp
  | cons c cs ih =>
    intro piece h
    rw [splitChar] at h
    by_cases hc : (c == sep) = true
    · rw [if_pos hc] at h
      rcases List.mem_cons.mp h with h2 | h2
      · subst h2; simp
      · exact ih piece h2
    · rw [if_neg hc] at h
      cases hr : splitChar sep cs with
      | nil =>
        rw [hr] at h
        simp at h
        subst h
        intro hm
        simp at hm
        exact hc (by simp [hm])
      | cons p1 t1 =>
        rw [hr] at h
        rcases List.mem_cons.mp h with h2 | h2
        · subst h2
          intro hmem
          rcases List.mem_cons.mp hmem with h3 | h3
          · exact hc (by simp [h3])
          · exact ih p1 (by rw [hr]; simp) h3
        · exact ih piece (by rw [hr]; simp [h2])

theorem getLastD_mem_or {α : Type} (l : List α) (d : α) :
    l.getLastD d = d ∨ l.getLastD d ∈ l := by
  induction l generalizing d with
  | nil => left; rfl
  | cons a t ih =>
    rcases ih a with h | h
    · right
      rw [List.getLastD_cons, h]
      exact List.mem_cons_self a t
    · right
      rw [List.getLastD_cons]
      exact List.mem_cons_of_mem a h

theorem pathName_no_slash (s : String) : ∀ c ∈ (pathName s).data, c ≠ '/' := by
  intro c hc heq
  subst heq
  unfold pathName at hc
  rcases getLastD_mem_or (pathParts s) [] with h | h
  · rw [h] at hc
    simp at hc
  · have h2 : (pathParts s).getLastD [] ∈ splitChar '/' s.data :=
      List.mem_of_mem_filter h
    exact splitChar_no_sep '/' s.data _ h2 hc

theorem rstripSlashes_eq_self (s : String) (h : ∀ c ∈ s.data, c ≠ '/') :
    rstripSlashes s = s := by
  unfold rstripSlashes
  have hd : s.data.reverse.dropWhile (fun c => c == '/') = s.data.reverse := by
    cases hr : s.data.reverse with
    | nil => rfl
    | cons c cs =>
      rw [List.dropWhile_cons_of_neg]
      have hcm : c ∈ s.data := by
        have : c ∈ s.data.reverse := by rw [hr]; simp
        simpa using this
      simp [h c hcm]
  rw [hd, List.reverse_reverse]

theorem build_cmd_ok_exclude (toml_dir_name : String) (cfg : PackageToml)
    (tv : Option (Nat × Nat × Nat)) (tok thok : Bool) (output_dir ns : String)
    (c : CopyCall)
    (h : build_cmd toml_dir_name cfg tv tok thok output_dir ns = .ok c) :
    c.exclude_patterns =
      (if cfg.package_exclude.contains (pathName output_dir) then cfg.package_exclude
       else cfg.package_exclude ++ [pathName output_dir]) := by
  unfold build_cmd at h
  dsimp only at h
  repeat' split at h
  all_goals cases h
  all_goals unfold build_finish
  all_goals rfl

/-- C9 (amended): every successful build appends the base name of the
chosen output directory to the manifest's exclude patterns (when absent),
and — when that name is glob-free and names an existing directory under the
source root — the source subtree directly under the source root bearing
that name is excluded from the copy even though the manifest's exclude
field does not list it.  (Same-named directories nested deeper in the
source tree are not excluded: see the counterexample.) -/
theorem claim_C9_amended (toml_dir_name : String) (cfg : PackageToml)
    (tv : Option (Nat × Nat × Nat)) (tok thok : Bool) (output_dir ns : String)
    (c : CopyCall) (isDir : String → Bool) (rel : String)
    (hok : build_cmd toml_dir_name cfg tv tok thok output_dir ns = .ok c)
    (hdir : isDir (pathName output_dir) = true)
    (hglob : hasGlobChar (pathName output_dir) = false)
    (hrel : rel = pathName output_dir ∨
            strIsPrefix (pathName output_dir ++ "/") rel = true) :
    (pathName output_dir) ∈ c.exclude_patterns ∧
    should_exclude rel c.exclude_patterns isDir = true := by
  have hexc := build_cmd_ok_exclude _ _ _ _ _ _ _ _ hok
  have hmem : (pathName output_dir) ∈ c.exclude_patterns := by
    rw [hexc]
    split
    · rename_i hcont
      simpa using hcont
    · simp
  refine ⟨hmem, ?_⟩
  unfold should_exclude
  rw [List.any_eq_true]
  refine ⟨pathName output_dir, hmem, ?_⟩
  have hstrip : rstripSlashes (pathName output_dir) = pathName output_dir :=
    rstripSlashes_eq_self _ (pathName_no_slash output_dir)
  rw [Bool.or_eq_true, Bool.and_eq_true, Bool.or_eq_true, Bool.or_eq_true]
  right
  constructor
  · right
    simp [hglob, hdir]
  · rw [hstrip]
    rcases hrel with h | h
    · left; simp [h]
    · right; exact h

theorem claim_C9_witness :
    (("out") ∈ (CopyCall.mk ("out/pkg/1.0.0") [("out")] ("preview/pkg") ("1.0.0")
        ("main.typ")).exclude_patterns) ∧
    should_exclude ("out/f.typ")
      (CopyCall.mk ("out/pkg/1.0.0") [("out")] ("preview/pkg") ("1.0.0")
        ("main.typ")).exclude_patterns
      (fun p => p == ("out")) = true :=
  claim_C9_amended ("pkg")
    ⟨some ("pkg"), some ("1.0.0"), [], none, none, none, none, none⟩
    none true true ("out") ("preview") _ (fun p => p == ("out")) ("out/f.typ")
    rfl (by decide) (by decide) (Or.inr (by decide))

/-- C9 counterexample: with output directory `out` and an empty manifest
exclude list, the build's copy call excludes only the top-level `out`
pattern; a file inside a *nested* directory also named `out` (here
`sub/out`, an existing directory while no top-level `out` exists under the
source root) is not excluded — refuting "any subtree of the source
directory bearing that name is excluded". -/
theorem claim_C9_counterexample :
    build_cmd ("pkg") ⟨some ("pkg"), some ("1.0.0"), [], none, none, none, none, none⟩
        none true true ("out") ("preview")
      = .ok (CopyCall.mk ("out/pkg/1.0.0") [("out")] ("preview/pkg") ("1.0.0")
          ("main.typ")) ∧
    should_exclude ("sub/out/data.bin") [("out")] (fun p => p == ("sub/out")) = false := by
  constructor
  · rfl
  · unfold should_exclude
    simp only [List.any_cons, List.any_nil, Bool.or_false]
    rw [Bool.or_eq_false_iff]
    constructor
    · have hl := fnmatch_lit ("sub/out/data.bin") ("out") (by decide)
      cases hf : fnmatch ("sub/out/data.bin") ("out")
      · rfl
      · exact absurd (hl.mp hf) (by decide)
    · decide

set_option maxHeartbeats 2000000 in
theorem pySplitlinesAux_no_break (cur l : List Char) :
    (∀ c ∈ cur, pyIsLineBreak c = false) →
      ∀ line ∈ pySplitlinesAux cur l, ∀ c ∈ line, pyIsLineBreak c = false := by
  induction cur, l using pySplitlinesAux.induct with
  | case1 cur hemp =>
    intro hcur line hline
    rw [pySplitlinesAux, if_pos hemp] at hline
    simp at hline
  | case2 cur hemp =>
    intro hcur line hline
    rw [pySplitlinesAux, if_neg hemp] at hline
    simp at hline
    subst hline
    intro c hc
    exact hcur c (by simpa using hc)
  | case3 cur cs ih =>
    intro hcur line hline
    rw [pySplitlinesAux] at hline
    rcases List.mem_cons.mp hline with h | h
    · subst h
      intro c hc
      exact hcur c (by simpa using hc)
    · exact ih (by simp) line h
  | case4 cur c cs hne hbr ih =>
    intro hcur line hline
    rw [pySplitlinesAux] at hline
    · rw [if_pos hbr] at hline
      rcases List.mem_cons.mp hline with h | h
      · subst h
        intro c2 hc2
        exact hcur c2 (by simpa using hc2)
      · exact ih (by simp) line h
    · exact hne
  | case5 cur c cs hne hbr ih =>
    intro hcur line hline
    rw [pySplitlinesAux] at hline
    · rw [if_neg hbr] at hline
      refine ih ?_ line hline
      intro c2 hc2
      rcases List.mem_cons.mp hc2 with h | h
      · subst h
        simpa using hbr
      · exact hcur c2 h
    · exact hne

theorem joinLines_mem (ls : List (List Char)) (c : Char) (hc : c ∈ joinLines ls) :
    c = '\n' ∨ ∃ l ∈ ls, c ∈ l := by
  induction ls with
  | nil => simp [joinLines] at hc
  | cons a t ih =>
    cases t with
    | nil =>
      right
      exact ⟨a, by simp, by simpa [joinLines] using hc⟩
    | cons b t2 =>
      rw [joinLines] at hc
      · rcases List.mem_append.mp hc with h | h
        · right
          exact ⟨a, by simp, h⟩
        · rcases List.mem_cons.mp h with h2 | h2
          · left
            exact h2
          · rcases ih h2 with h3 | ⟨l, hl, hcl⟩
            · left; exact h3
            · right; exact ⟨l, by simp [hl], hcl⟩
      · simp

/-- C10 (amended): the copied manifest is the surviving `splitlines` lines
joined with `"\n"`: CRLF terminators become LF and no carriage return
survives anywhere in the output, and a single trailing newline of the
source manifest is dropped even when no schema-directive line was removed;
however the output can still end with a newline — exactly when the
manifest's final surviving line is empty (see the counterexample), so
"never ends with a newline" does not hold. -/
theorem claim_C10_amended :
    sanitize_manifest ("[package]\r\nname = \"x\"\r\n") = ("[package]\nname = \"x\"") ∧
    sanitize_manifest ("[package]\nname = \"x\"\n") = ("[package]\nname = \"x\"") ∧
    (∀ content, '\r' ∈ (sanitize_manifest content).data → False) := by
  refine ⟨rfl, rfl, ?_⟩
  intro content hmem
  unfold sanitize_manifest at hmem
  rcases joinLines_mem _ _ hmem with h | ⟨l, hl, hcl⟩
  · exact absurd h (by decide)
  · have hl2 : l ∈ pySplitlines content.data := List.mem_of_mem_filter hl
    have hnb := pySplitlinesAux_no_break [] content.data (by simp) l hl2 '\r' hcl
    exact absurd hnb (by decide)

/-- C10 counterexample: a manifest whose last line (before its final
terminator) is empty — `"a\n\n"` — sanitizes to `"a\n"`, which ends with a
newline character, refuting "the copied manifest never ends with a
newline". -/
theorem claim_C10_counterexample :
    sanitize_manifest ("a\n\n") = ("a\n") ∧
    strEndsWith (sanitize_manifest ("a\n\n")) ("\n") = true :=
  ⟨rfl, by decide⟩
